import Mathlib

/-!
Verification development for the Discord-Relay delivery core.

The JavaScript sources are shallowly embedded over `List Char` (a JS string
is its list of UTF-16 code units; all inputs of interest here are ASCII, so
`Char` is a faithful carrier).  Impure library calls (the HTTP client, the
system clock, `JSON.parse`, HMAC) are passed in as explicit oracles, and each
HTTP attempt made by the dispatcher is recorded in a trace so that attempt
counts, headers and backoff delays are observable.
-/

set_option linter.unusedVariables false
set_option linter.unnecessarySeqFocus false

namespace DiscordRelay

/-- The whitespace class used by `String.prototype.trim` and by the regex
class matched by a backslash-s, restricted to the ASCII range (all contents
relevant to the spec are ASCII). -/
def isWs (c : Char) : Bool :=
  c = ' ' || c = '\t' || c = '\n' || c = '\r' || c = '\x0b' || c = '\x0c'

/-- JS `s.trimStart()` / the leading half of `s.trim()`. -/
def trimLeft (s : List Char) : List Char := s.dropWhile isWs

/-- JS `s.trimEnd()` / the trailing half of `s.trim()`. -/
def trimRight (s : List Char) : List Char := (s.reverse.dropWhile isWs).reverse

/-- JS `s.trim()`: drop whitespace from both ends. -/
def trim (s : List Char) : List Char := trimLeft (trimRight s)

/-- The `config.bot` object as consumed by `filters.js`. -/
structure BotConfig where
  botPrefix : List Char
  allowEveryoneMentions : Bool
deriving DecidableEq

/-- The Discord client's own user, as consumed by `filters.js`. -/
structure ClientUser where
  userId : List Char
deriving DecidableEq

/-- The parts of `message.mentions` read by `filters.js`:
`message.mentions?.users?.has?.(client.user.id)` and
`message.mentions?.everyone`. -/
structure MessageMentions where
  hasBotUser : Bool
  everyone : Bool
deriving DecidableEq

/-- One of the `message.attachments` entries, fields read by `payload.js`. -/
structure Attachment where
  id : List Char
  name : List Char
  url : List Char
  contentType : Option (List Char)
  size : Nat
  height : Option Nat
  width : Option Nat
deriving DecidableEq

/-- One embed field object (copied verbatim by the normalizer). -/
structure EmbedField where
  name : List Char
  value : List Char
  inlineFlag : Bool
deriving DecidableEq

/-- One of the `message.embeds` entries, fields read by `payload.js`. -/
structure Embed where
  title : Option (List Char)
  description : Option (List Char)
  url : Option (List Char)
  color : Option Int
  timestamp : Option (List Char)
  fields : List EmbedField
deriving DecidableEq

/-- The `message.guild` object (nullable). -/
structure Guild where
  id : List Char
  name : List Char
deriving DecidableEq

/-- The `message.channel` object, with `isDMBased()` pre-evaluated to a flag. -/
structure Channel where
  id : List Char
  name : List Char
  isDMBased : Bool
  chType : Nat
deriving DecidableEq

/-- The `message.author` object; `displayName` is `none` when the property is absent,
`displayAvatarURL` is the string returned by the method call. -/
structure Author where
  id : List Char
  username : List Char
  displayName : Option (List Char)
  discriminator : List Char
  bot : Bool
  displayAvatarURL : List Char
deriving DecidableEq

/-- The inbound `discord.js` message object, restricted to the fields the
delivery core reads.  `createdAtISO` is `message.createdAt.toISOString()`. -/
structure DMessage where
  id : List Char
  content : List Char
  createdAtISO : List Char
  author : Author
  mentions : MessageMentions
  guild : Option Guild
  channel : Channel
  attachments : List Attachment
  embeds : List Embed
deriving DecidableEq

/-- Return type of `isBotCalled` in `filters.js`:
`{ called: boolean, rule: string | null, cleanContent: string }`. -/
structure TriggerResult where
  called : Bool
  rule : Option (List Char)
  cleanContent : List Char
deriving DecidableEq

/-- Whether `pat` occurs as a (contiguous) substring of `s`; the semantics of
an unanchored regex `.test` for a pattern of literal characters. -/
def containsPat (pat : List Char) : List Char → Bool
  | [] => pat.isPrefixOf []
  | c :: rest => pat.isPrefixOf (c :: rest) || containsPat pat rest

/-- The test of the regex built in `filters.js` line 32 from the bot id:
an unanchored match of the two literal alternatives of the optional bang. -/
def mentionPatternTest (botId : List Char) (s : List Char) : Bool :=
  containsPat (['<', '@', '!'] ++ botId ++ ['>']) s ||
  containsPat (['<', '@'] ++ botId ++ ['>']) s

/-- The lookahead of the broadcast-mention regexes: next char is whitespace,
end of input, or one of bang, comma, dot, question mark. -/
def lookaheadOk : List Char → Bool
  | [] => true
  | c :: _ => isWs c || c = '!' || c = ',' || c = '.' || c = '?'

/-- Whether `tok` matches at the head of `s` and is followed by an admissible
boundary (the part of the broadcast regex after the left anchor). -/
def tokenAt (tok : List Char) (s : List Char) : Bool :=
  tok.isPrefixOf s && lookaheadOk (s.drop tok.length)

/-- Scan for a whitespace character directly followed by a `tokenAt` match. -/
def tokenAfterWs (tok : List Char) : List Char → Bool
  | [] => false
  | c :: rest => (isWs c && tokenAt tok rest) || tokenAfterWs tok rest

/-- Embeds the `filters.js` regex test for a broadcast token: the token must
be preceded by start-of-content or a whitespace character, and followed by
whitespace, end-of-content, or sentence punctuation. -/
def hasBroadcastToken (tok : List Char) (s : List Char) : Bool :=
  tokenAt tok s || tokenAfterWs tok s

/-- One step of a JS global regex replace by the empty string over a list of
literal alternatives: at each position the first matching alternative is
removed, otherwise the character is kept.  All patterns used by the source
are non-empty, which the `p.length - 1` drop below relies on. -/
def replaceAllPats (pats : List (List Char)) : List Char → List Char
  | [] => []
  | c :: rest =>
    match (pats.filter (fun p => !p.isEmpty)).find? (fun p => p.isPrefixOf (c :: rest)) with
    | some p => replaceAllPats pats (rest.drop (p.length - 1))
    | none => c :: replaceAllPats pats rest
termination_by s => s.length
decreasing_by
  all_goals simp_wf
  all_goals omega

/-- The rule string for a prefix trigger: the template string of
`filters.js` line 25. -/
def ruleStrOf (p : List Char) : List Char := ("prefix:").toList ++ p

/-- Embeds `isBotCalled(message, client)` from `filters.js` (the current revision,
with broadcast-mention support).  Faithful translation: bot authors are
rejected first with the raw (untrimmed) content echoed; the prefix rule is
checked on the trimmed content; then the mention rule. -/
def isBotCalled (cfg : BotConfig) (client : ClientUser) (m : DMessage) : TriggerResult :=
  if m.author.bot then
    { called := false, rule := none, cleanContent := m.content }
  else
    let content := trim m.content
    let p := cfg.botPrefix
    if (p ++ [' ']).isPrefixOf content || content = p then
      let cleanContent :=
        if (p ++ [' ']).isPrefixOf content then trim (content.drop (p.length + 1)) else []
      { called := true, rule := some (ruleStrOf p), cleanContent := cleanContent }
    else
      let botMentioned := mentionPatternTest client.userId content || m.mentions.hasBotUser
      let everyoneMentionedInContent := hasBroadcastToken (("@everyone").toList) content
      let hereMentionedInContent := hasBroadcastToken (("@here").toList) content
      let everyoneMentioned :=
        m.mentions.everyone || everyoneMentionedInContent || hereMentionedInContent
      if botMentioned || (cfg.allowEveryoneMentions && everyoneMentioned) then
        let clean1 :=
          if botMentioned then
            trim (replaceAllPats
              [['<', '@', '!'] ++ client.userId ++ ['>'], ['<', '@'] ++ client.userId ++ ['>']]
              content)
          else content
        let cleanContent :=
          if !botMentioned && everyoneMentioned then
            trim (replaceAllPats [(("@here").toList)]
                   (replaceAllPats [(("@everyone").toList)] clean1))
          else clean1
        { called := true, rule := some (("mention").toList), cleanContent := cleanContent }
      else
        { called := false, rule := none, cleanContent := content }

/-- Embeds `isGuildAllowed(guild)` from `filters.js`; the allow-list is `none` when
`ALLOWED_GUILD_IDS` is unset. -/
def isGuildAllowed (allowedGuildIds : Option (List (List Char))) (guild : Option Guild) : Bool :=
  match guild with
  | none => false
  | some g =>
    match allowedGuildIds with
    | none => true
    | some ids => if ids.isEmpty then true else ids.contains g.id

/-- The `relay` block of the normalized payload. -/
structure RelayInfo where
  version : Nat
  source : List Char
  bot_called : Bool
  matched_rule : List Char
deriving DecidableEq

/-- The `channel` block of the normalized payload. -/
structure PayloadChannel where
  id : List Char
  name : List Char
  chType : Nat
deriving DecidableEq

/-- One formatted attachment of the normalized payload. -/
structure PayloadAttachment where
  id : List Char
  filename : List Char
  url : List Char
  content_type : Option (List Char)
  size : Nat
  height : Option Nat
  width : Option Nat
deriving DecidableEq

/-- The `message` block of the normalized payload. -/
structure PayloadMessage where
  id : List Char
  content : List Char
  clean_content : List Char
  created_at : List Char
  attachments : List PayloadAttachment
  embeds : List Embed
deriving DecidableEq

/-- The `author` block of the normalized payload. -/
structure PayloadAuthor where
  id : List Char
  username : List Char
  display_name : List Char
  discriminator : Option (List Char)
  bot : Bool
  avatar : Option (List Char)
deriving DecidableEq

/-- The normalized wire payload built by `formatMessageEvent`. -/
structure NormalizedPayload where
  event_type : List Char
  relay : RelayInfo
  timestamp : List Char
  guild : Option Guild
  channel : PayloadChannel
  message : PayloadMessage
  author : PayloadAuthor
deriving DecidableEq

/-- Embeds `formatMessageEvent(message, eventType, matchedRule)` from `payload.js`.
`nowISO` stands for the `new Date().toISOString()` call at the head of the
function.  Note line 590 of the source: `clean_content` is set to
`message.content.trim()` — the trimmed raw content — even though the comment
above it says the content was already processed by the filters. -/
def formatMessageEvent (nowISO : List Char) (message : DMessage)
    (eventType : List Char) (matchedRule : List Char) : NormalizedPayload :=
  let messageTimestamp := message.createdAtISO
  let attachments := message.attachments.map fun a =>
    { id := a.id, filename := a.name, url := a.url, content_type := a.contentType,
      size := a.size, height := a.height, width := a.width : PayloadAttachment }
  let guild := message.guild.map fun g => { id := g.id, name := g.name : Guild }
  let channel : PayloadChannel :=
    { id := message.channel.id,
      name := if message.channel.isDMBased then ("dm").toList else message.channel.name,
      chType := message.channel.chType }
  let author : PayloadAuthor :=
    { id := message.author.id,
      username := message.author.username,
      display_name :=
        match message.author.displayName with
        | some d => if d.isEmpty then message.author.username else d
        | none => message.author.username,
      discriminator :=
        if message.author.discriminator = ('0' :: []) then none
        else some message.author.discriminator,
      bot := message.author.bot,
      avatar :=
        if message.author.displayAvatarURL.isEmpty then none
        else some message.author.displayAvatarURL }
  let cleanContent := trim message.content
  { event_type := eventType,
    relay := { version := 1, source := ("discord").toList, bot_called := true,
               matched_rule := matchedRule },
    timestamp := nowISO,
    guild := guild,
    channel := channel,
    message :=
      { id := message.id,
        content := message.content,
        clean_content := cleanContent,
        created_at := messageTimestamp,
        attachments := attachments,
        embeds :=
          if message.embeds.length > 0 then
            message.embeds.map fun e =>
              { title := e.title, description := e.description, url := e.url,
                color := e.color, timestamp := e.timestamp, fields := e.fields : Embed }
          else [] },
    author := author }

/-!  The dispatcher (`relay.js`, current revision).  The HTTP transport is an
oracle mapping the attempt index to the wire-level outcome; the system clock
is an oracle mapping the index of the clock read to an ISO string; HMAC and
the canonical JSON serialization are abstract function parameters. -/

/-- Wire-level outcome of one HTTP POST: either a response arrived (status and
status text), or the request failed at transport level with an optional
Node error code, an optional response status, and an error message. -/
inductive WireOutcome where
  | ok (status : Nat) (statusText : List Char)
  | fail (code : Option (List Char)) (respStatus : Option Nat) (msg : List Char)
deriving DecidableEq

/-- The error object thrown by the HTTP client. -/
structure AxiosError where
  code : Option (List Char)
  respStatus : Option Nat
  msg : List Char
deriving DecidableEq

/-- A received HTTP response. -/
structure AxResponse where
  status : Nat
  statusText : List Char
deriving DecidableEq

/-- Embeds `axios.post` with `validateStatus: (status) => status < 500`: a received
response with status at least 500 is converted into a thrown error carrying
that response status. -/
def axiosPostLt500 (w : WireOutcome) : Except AxiosError AxResponse :=
  match w with
  | .ok s st =>
    if s < 500 then .ok { status := s, statusText := st }
    else .error { code := none, respStatus := some s,
                  msg := ("Request failed with status code ").toList ++ (Nat.repr s).toList }
  | .fail c rs m => .error { code := c, respStatus := rs, msg := m }

/-- Embeds `axios.post` with `validateStatus: () => true` (used by `testWebhook`):
every received response is returned; only transport failures throw. -/
def axiosPostAll (w : WireOutcome) : Except AxiosError AxResponse :=
  match w with
  | .ok s st => .ok { status := s, statusText := st }
  | .fail c rs m => .error { code := c, respStatus := rs, msg := m }

/-- Return value of `sendToWebhook`:
`{ success: boolean, status?: number, error?: string }`. -/
structure SendOutcome where
  success : Bool
  status : Option Nat
  error : Option (List Char)
deriving DecidableEq

/-- Observable record of one HTTP attempt: the headers it sent and, when a
backoff wait followed it, the waited delay in milliseconds. -/
structure AttemptRecord where
  headers : List (List Char × List Char)
  delayAfterMs : Option Nat
deriving DecidableEq

/-- The retryable-error test of `relay.js` lines 134-138:
`error.code` is one of the three connection-level codes, or
`error.response?.status >= 500`. -/
def isNetworkError (e : AxiosError) : Bool :=
  (match e.code with
   | some c =>
     c = ("ECONNREFUSED").toList || c = ("ETIMEDOUT").toList || c = ("ENOTFOUND").toList
   | none => false) ||
  (match e.respStatus with
   | some s => 500 ≤ s
   | none => false)

/-- Embeds `generateSignature(payload, secret)`: HMAC-SHA256 (abstract `hmac`) over
`JSON.stringify(payload)` (abstract `stringify`).  The timestamp is not an
input. -/
def generateSignature {α : Type} (stringify : α → List Char)
    (hmac : List Char → List Char → List Char) (payload : α) (secret : List Char) : List Char :=
  hmac secret (stringify payload)

/-- The `maxRetries` constant of `sendToWebhook`. -/
def maxRetries : Nat := 3

/-- The `baseDelay` constant of `sendToWebhook`, in milliseconds. -/
def baseDelay : Nat := 1000

/-- The `for (let attempt = 0; attempt <= maxRetries; attempt++)` loop of
`sendToWebhook`, as a recursion on the number of loop iterations left
(`fuel = maxRetries + 1 - attempt`; the fuel-exhausted base case is the
`Max retries exceeded` return after the loop).  The headers are a parameter:
the source builds them once, before the loop. -/
def sendAttempts (oracle : Nat → WireOutcome) (headers : List (List Char × List Char))
    (mr bd : Nat) : Nat → Nat → SendOutcome × List AttemptRecord
  | _, 0 => ({ success := false, status := none, error := some (("Max retries exceeded").toList) }, [])
  | attempt, fuel + 1 =>
    match axiosPostLt500 (oracle attempt) with
    | .ok response =>
      if 200 ≤ response.status ∧ response.status < 300 then
        ({ success := true, status := some response.status, error := none },
         [{ headers := headers, delayAfterMs := none }])
      else
        ({ success := false, status := some response.status,
           error := some (("HTTP ").toList ++ (Nat.repr response.status).toList ++
                          (": ").toList ++ response.statusText) },
         [{ headers := headers, delayAfterMs := none }])
    | .error e =>
      if attempt = mr ∨ isNetworkError e = false then
        ({ success := false, status := e.respStatus,
           error := some (if e.msg.isEmpty then ("Unknown error").toList else e.msg) },
         [{ headers := headers, delayAfterMs := none }])
      else
        let delay := bd * 2 ^ attempt
        let rest := sendAttempts oracle headers mr bd (attempt + 1) fuel
        (rest.1, { headers := headers, delayAfterMs := some delay } :: rest.2)

/-- Embeds `sendToWebhook(webhookUrl, payload, webhookName, sharedSecret)` from
`relay.js`.  `nowAt k` is the ISO string of the k-th clock read made by this
call; the source reads the clock exactly once (`nowAt 0`), builds the headers
once, and then runs the retry loop.  Returns the outcome together with the
trace of attempts actually made. -/
def sendToWebhook {α : Type} (stringify : α → List Char)
    (hmac : List Char → List Char → List Char) (nowAt : Nat → List Char)
    (oracle : Nat → WireOutcome) (webhookUrl : List Char) (payload : α)
    (webhookName : List Char) (sharedSecret : Option (List Char)) :
    SendOutcome × List AttemptRecord :=
  let timestamp := nowAt 0
  let baseHeaders := [(("Content-Type").toList, ("application/json").toList),
                      (("X-Relay-Timestamp").toList, timestamp)]
  let headers :=
    match sharedSecret with
    | some secret =>
      if secret.isEmpty then baseHeaders
      else baseHeaders ++
        [(("X-Relay-Signature").toList, generateSignature stringify hmac payload secret)]
    | none => baseHeaders
  sendAttempts oracle headers maxRetries baseDelay 0 (maxRetries + 1)

/-!  The destination registry: `readConfigFile`/`parseEnv` from `config.js`
and `getCurrentWebhooks` from `relay.js`. -/

/-- Key-start class of the `parseEnv` line regex: an upper-case letter or an
underscore. -/
def isKeyStart (c : Char) : Bool := ('A' ≤ c && c ≤ 'Z') || c = '_'

/-- Key-continuation class of the `parseEnv` line regex: key-start or a
digit. -/
def isKeyChar (c : Char) : Bool := isKeyStart c || ('0' ≤ c && c ≤ '9')

/-- The double-quote character. -/
def dq : Char := Char.ofNat 34

/-- The single-quote character. -/
def sq : Char := Char.ofNat 39

/-- Strip one pair of surrounding quotes (double or single) if present:
`config.js` lines 300-304.  A single quote character both starts and ends
with itself and becomes the empty value, matching `slice(1, -1)`. -/
def stripQuotes (v : List Char) : List Char :=
  if !v.isEmpty && v.headD ' ' = dq && v.getLastD ' ' = dq then (v.dropLast).drop 1
  else if !v.isEmpty && v.headD ' ' = sq && v.getLastD ' ' = sq then (v.dropLast).drop 1
  else v

/-- Match one already-trimmed line against the anchored regex of `parseEnv`
(`config.js` line 297): a key of upper-case letters, digits and underscores
starting with a letter or underscore, optional whitespace, an equals sign,
optional whitespace, then the value (rest of the line). -/
def parseEnvLine (l : List Char) : Option (List Char × List Char) :=
  match l with
  | [] => none
  | c :: rest =>
    if isKeyStart c then
      let key := c :: rest.takeWhile isKeyChar
      let afterKey := (rest.dropWhile isKeyChar).dropWhile isWs
      match afterKey with
      | '=' :: tail => some (key, stripQuotes (tail.dropWhile isWs))
      | _ => none
    else none

/-- Split on the newline character (`content.split('\n')`). -/
def splitLines (s : List Char) : List (List Char) := s.splitOn '\n'

/-- Embeds `parseEnv(content)` from `config.js`: per line, trim, skip empty lines
and comment lines, then match the assignment regex.  The returned association
list keeps the assignments in file order; a later assignment to the same key
overrides an earlier one, which `envLookup` implements by searching from the
end. -/
def parseEnv (content : List Char) : List (List Char × List Char) :=
  (splitLines content).foldr
    (fun line acc =>
      let trimmed := trim line
      match trimmed with
      | [] => acc
      | c :: _ =>
        if c = '#' then acc
        else
          match parseEnvLine trimmed with
          | some kv => kv :: acc
          | none => acc)
    []

/-- Property lookup on the object built by `parseEnv`: the last assignment to
a key wins. -/
def envLookup (env : List (List Char × List Char)) (key : List Char) : Option (List Char) :=
  env.reverse.lookup key

/-- Embeds `readConfigFile()` from `config.js`: the read outcome of the underlying
`fs.promises.readFile` is the argument.  The source catches a failed read,
logs it, and returns the empty string — it does not rethrow. -/
def readConfigFile (readResult : Except (List Char) (List Char)) : List Char :=
  match readResult with
  | .ok content => content
  | .error _ => []

/-- The placeholder sentinel excluded from destination URLs. -/
def urlPlaceholder : List Char := ("your_n8n_webhook_url_here").toList

/-- The value of `getCurrentWebhooks`. -/
structure WebhookConfig where
  defaultWebhook : Option (List Char)
  webhooks : List (List Char × List Char)
  sharedSecret : Option (List Char)
deriving DecidableEq

/-- The cached `config` object fields that the `catch` branch of
`getCurrentWebhooks` would fall back to. -/
structure CachedConfig where
  webhookUrl : Option (List Char)
  webhooks : List (List Char × List Char)
  sharedSecret : Option (List Char)
deriving DecidableEq

/-- A JSON value as seen by the `typeof url === 'string'` check. -/
inductive JsVal where
  | str (s : List Char)
  | other
deriving DecidableEq

/-- Embeds `getCurrentWebhooks()` from `relay.js`.  `jsonParseObj` embeds
`JSON.parse` followed by `Object.entries`.  The body is the `try` block of
the source; its `catch` (fall back to the cached `config`) is unreachable in
this model — and in the source — because `readConfigFile` already catches a
failed file read and returns the empty string, and nothing else in the block
throws.  `cached` is kept as a parameter to document that contract. -/
def getCurrentWebhooks
    (jsonParseObj : List Char → Except (List Char) (List (List Char × JsVal)))
    (readResult : Except (List Char) (List Char))
    (cached : CachedConfig) : WebhookConfig :=
  let content := readConfigFile readResult
  let envConfig := parseEnv content
  let defaultWebhook :=
    match envLookup envConfig (("N8N_WEBHOOK_URL").toList) with
    | some rawUrl =>
      if rawUrl.isEmpty then none
      else
        let trimmedUrl := trim rawUrl
        if ¬trimmedUrl.isEmpty ∧ trimmedUrl ≠ urlPlaceholder then some trimmedUrl else none
    | none => none
  let webhooks :=
    match envLookup envConfig (("N8N_WEBHOOKS").toList) with
    | some s =>
      if s.isEmpty then []
      else
        match jsonParseObj s with
        | .ok entries =>
          entries.filterMap fun nv =>
            match nv.2 with
            | .str u =>
              if u.isEmpty then none
              else
                let trimmedUrl := trim u
                if ¬trimmedUrl.isEmpty ∧ trimmedUrl ≠ urlPlaceholder then some (nv.1, trimmedUrl)
                else none
            | .other => none
        | .error _ => []
    | none => []
  let sharedSecret :=
    match envLookup envConfig (("RELAY_SHARED_SECRET").toList) with
    | some s => if s.isEmpty then none else some s
    | none => none
  { defaultWebhook := defaultWebhook, webhooks := webhooks, sharedSecret := sharedSecret }

/-- One element of the list returned by `sendToN8n`:
`{ webhook, url, success, status?, error? }`. -/
structure DispatchResult where
  webhook : List Char
  url : List Char
  success : Bool
  status : Option Nat
  error : Option (List Char)
deriving DecidableEq

/-- Spread of a `sendToWebhook` outcome into a named dispatch result. -/
def mkDispatchResult (name url : List Char) (r : SendOutcome) : DispatchResult :=
  { webhook := name, url := url, success := r.success, status := r.status, error := r.error }

/-- Embeds `sendToN8n(payload)` from `relay.js`: resolve the current destination
set via `getCurrentWebhooks`, send to the default destination first when
configured, then to every named destination in order.  `oracle url k` is the
wire outcome of the k-th attempt against `url`. -/
def sendToN8n {α : Type} (stringify : α → List Char)
    (hmac : List Char → List Char → List Char) (nowAt : Nat → List Char)
    (oracle : List Char → Nat → WireOutcome)
    (jsonParseObj : List Char → Except (List Char) (List (List Char × JsVal)))
    (readResult : Except (List Char) (List Char))
    (cached : CachedConfig) (payload : α) : List DispatchResult :=
  let cfg := getCurrentWebhooks jsonParseObj readResult cached
  let defaultResults :=
    match cfg.defaultWebhook with
    | some url =>
      [mkDispatchResult (("default").toList) url
        (sendToWebhook stringify hmac nowAt (oracle url) url payload
          (("default").toList) cfg.sharedSecret).1]
    | none => []
  defaultResults ++ cfg.webhooks.map fun nu =>
    mkDispatchResult nu.1 nu.2
      (sendToWebhook stringify hmac nowAt (oracle nu.2) nu.2 payload nu.1 cfg.sharedSecret).1

/-- The synthetic payload sent by `testWebhook`; its `timestamp` field is the
first clock read of the call. -/
structure TestPayloadShape where
  event_type : List Char
  relay : RelayInfo
  timestamp : List Char
  message : List Char
deriving DecidableEq

/-- The literal test payload of `relay.js` lines 222-232. -/
def testPayload (nowISO : List Char) : TestPayloadShape :=
  { event_type := ("test").toList,
    relay := { version := 1, source := ("discord").toList, bot_called := false,
               matched_rule := ("test").toList },
    timestamp := nowISO,
    message := ("This is a test payload from Discord Relay Bot").toList }

/-- Return value of `testWebhook` (the `data` field of a received response is
not modelled; no claim reads it). -/
structure TestResult where
  success : Bool
  status : Option Nat
  error : Option (List Char)
  code : Option (List Char)
  responseTime : Nat
deriving DecidableEq

/-- Embeds `testWebhook(webhookUrl, sharedSecret)` from `relay.js`: build the test
payload (first clock read) and the headers (second clock read), then perform
a single `axios.post` with `validateStatus: () => true` — no retry loop.  A
thrown transport error is caught and converted into a failure result.
Returns the result together with the one-attempt trace. -/
def testWebhook (stringify : TestPayloadShape → List Char)
    (hmac : List Char → List Char → List Char) (nowAt : Nat → List Char)
    (elapsedMs : Nat) (oracle : Nat → WireOutcome)
    (webhookUrl : List Char) (sharedSecret : Option (List Char)) :
    TestResult × List AttemptRecord :=
  let payload := testPayload (nowAt 0)
  let timestamp := nowAt 1
  let baseHeaders := [(("Content-Type").toList, ("application/json").toList),
                      (("X-Relay-Timestamp").toList, timestamp)]
  let headers :=
    match sharedSecret with
    | some secret =>
      if secret.isEmpty then baseHeaders
      else baseHeaders ++
        [(("X-Relay-Signature").toList, generateSignature stringify hmac payload secret)]
    | none => baseHeaders
  match axiosPostAll (oracle 0) with
  | .ok response =>
    ({ success := decide (200 ≤ response.status ∧ response.status < 300),
       status := some response.status, error := none, code := none,
       responseTime := elapsedMs },
     [{ headers := headers, delayAfterMs := none }])
  | .error e =>
    ({ success := false, status := e.respStatus,
       error := some (if e.msg.isEmpty then ("Unknown error").toList else e.msg),
       code := e.code, responseTime := elapsedMs },
     [{ headers := headers, delayAfterMs := none }])

/-!  Spec-side predicates and concrete inputs used by the claim theorems. -/

/-- The sentence punctuation named by the spec's broadcast-mention rule. -/
def sentencePunct : List Char := ['!', ',', '.', '?']

/-- All decompositions of `s` into a pair of lists whose concatenation is
`s`, in order of the split position. -/
def splitsOf (s : List Char) : List (List Char × List Char) :=
  (List.range (s.length + 1)).map fun i => (s.take i, s.drop i)

/-- Left-boundary discipline of the source regex as the spec should have
described it: start of content or a whitespace character. -/
def leftBoundWsOnly : Option Char → Bool
  | none => true
  | some c => isWs c

/-- Left-boundary discipline as the claim words it: start of content, a
whitespace character, or sentence punctuation. -/
def leftBoundWsOrPunct : Option Char → Bool
  | none => true
  | some c => isWs c || sentencePunct.contains c

/-- Right boundary as both the claim and the regex lookahead word it:
end of content, whitespace, or sentence punctuation. -/
def rightBoundOk : List Char → Bool
  | [] => true
  | c :: _ => isWs c || sentencePunct.contains c

/-- Written from the claim's words, independently of the code's scan: `tok`
occurs as a whole token in `s`, with the supplied left-boundary discipline on
the preceding character and whitespace/punctuation/end after it. -/
def specTokenOccurs (leftOk : Option Char → Bool) (tok s : List Char) : Bool :=
  (splitsOf s).any fun pr =>
    leftOk pr.1.getLast? && tok.isPrefixOf pr.2 && rightBoundOk (pr.2.drop tok.length)

/-- A well-formed trigger prefix: non-empty with no whitespace at either
end (the shipped default `!bot` and any sensible `BOT_PREFIX` satisfy it). -/
def wfPref (p : List Char) : Bool :=
  match p with
  | [] => false
  | c :: _ => !isWs c && !isWs (p.getLastD ' ')

/-- A clock oracle whose reads are pairwise distinct: the k-th read is the
decimal numeral of k. -/
def natClock : Nat → List Char := fun k => (Nat.repr k).toList

/-- A transport oracle where every attempt fails with a refused
connection. -/
def refusedOracle : Nat → WireOutcome :=
  fun _ => .fail (some (("ECONNREFUSED").toList)) none (("connect ECONNREFUSED").toList)

/-- A human (non-bot) author used by the concrete scenarios. -/
def humanAuthor : Author :=
  { id := ("42").toList, username := ("alice").toList, displayName := none,
    discriminator := ("0").toList, bot := false, displayAvatarURL := [] }

/-- A guild-channel message with the given content, author-bot flag and
platform mention flags, used by the concrete scenarios. -/
def guildMsg (content : List Char) (isBot : Bool) : DMessage :=
  { id := ("100").toList, content := content, createdAtISO := ("2024-01-01T00:00:00.000Z").toList,
    author := { humanAuthor with bot := isBot },
    mentions := { hasBotUser := false, everyone := false },
    guild := some { id := ("7").toList, name := ("G").toList },
    channel := { id := ("9").toList, name := ("general").toList, isDMBased := false, chType := 0 },
    attachments := [], embeds := [] }

/-- The shipped configuration: `!bot` prefix, broadcast mentions off. -/
def defaultCfg : BotConfig := { botPrefix := ("!bot").toList, allowEveryoneMentions := false }

/-- The shipped configuration with broadcast mentions enabled. -/
def everyoneCfg : BotConfig := { botPrefix := ("!bot").toList, allowEveryoneMentions := true }

/-- A bot identity with a numeric snowflake id. -/
def botClient : ClientUser := { userId := ("99").toList }

/-- The end-to-end scenario message of the claim: `!bot summarize this` in a
server channel. -/
def c1Message : DMessage := guildMsg (("!bot summarize this").toList) false

/-- A cached configuration snapshot holding a default webhook, named
webhooks and a secret — what the `catch` of `getCurrentWebhooks` would fall
back to. -/
def c3Cached : CachedConfig :=
  { webhookUrl := some (("http://cached.example/hook").toList),
    webhooks := [(("extra").toList, ("http://cached.example/extra").toList)],
    sharedSecret := some (("s3cr3t").toList) }

/-- Sentence-punctuation-bounded broadcast token: the claim's boundary
discipline accepts it, the code's regex does not. -/
def c5Message : DMessage := guildMsg (("ok.@everyone!").toList) false

/-- A bot-authored message with untrimmed content. -/
def c6Message : DMessage := guildMsg ((" hi ").toList) true

/-- A maximally retried single-destination send against a clock whose reads
are pairwise distinct: all four attempts fail with a refused connection. -/
def c7Run : SendOutcome × List AttemptRecord :=
  sendToWebhook (fun _ : Unit => []) (fun _ d => d) natClock refusedOracle
    (("http://example/hook").toList) () (("default").toList) none

/-- The same maximally retried run, used to read off the backoff delays. -/
def c8Run : SendOutcome × List AttemptRecord :=
  sendToWebhook (fun _ : Unit => []) (fun _ d => d) natClock refusedOracle
    (("http://example/hook").toList) () (("default").toList) none

/-- A `JSON.parse` oracle that always fails (never consulted by the runs
that use it). -/
def failJson : List Char → Except (List Char) (List (List Char × JsVal)) :=
  fun _ => .error []

/-- Content equal to the prefix after trimming. -/
def c4ExactMsg : DMessage := guildMsg (("  !bot  ").toList) false

/-- Content of the form prefix, one space, then an argument with extra
whitespace. -/
def c4ArgMsg : DMessage := guildMsg (("!bot  hi ").toList) false

/-- Content with a whitespace-bounded broadcast token. -/
def c5TriggerMsg : DMessage := guildMsg (("go @everyone now").toList) false

/-!  Supporting lemmas about the string model. -/

theorem dropWhile_dropWhile {α : Type} (p : α → Bool) (l : List α) :
    (l.dropWhile p).dropWhile p = l.dropWhile p := by
  induction l with
  | nil => rfl
  | cons a t ih =>
    by_cases h : p a = true
    · simp [List.dropWhile_cons, h, ih]
    · simp only [Bool.not_eq_true] at h
      simp [List.dropWhile_cons, h]

theorem trimRight_idem (s : List Char) : trimRight (trimRight s) = trimRight s := by
  simp [trimRight, List.reverse_reverse, dropWhile_dropWhile]

theorem trim_trimRight (s : List Char) : trim (trimRight s) = trim s := by
  simp [trim, trimRight_idem]

theorem trimLeft_cons_of_not (c : Char) (t : List Char) (h : isWs c = false) :
    trimLeft (c :: t) = c :: t := by
  simp [trimLeft, List.dropWhile_cons, h]

theorem trimRight_append_of_ne (a b : List Char) (h : trimRight b ≠ []) :
    trimRight (a ++ b) = a ++ trimRight b := by
  have hb : (b.reverse.dropWhile isWs) ≠ [] := by
    intro hnil
    exact h (by simp [trimRight, hnil])
  simp [trimRight, List.dropWhile_append, List.isEmpty_iff, hb]

theorem trimRight_append_of_nil (a b : List Char) (h : trimRight b = []) :
    trimRight (a ++ b) = trimRight a := by
  have hb : (b.reverse.dropWhile isWs) = [] := by
    have := congrArg List.reverse h
    simpa [trimRight] using this
  simp [trimRight, List.dropWhile_append, List.isEmpty_iff, hb]

theorem trimRight_concat_of_not (L : List Char) (b : Char) (h : isWs b = false) :
    trimRight (L ++ [b]) = L ++ [b] := by
  simp [trimRight, List.dropWhile_cons, h]

theorem trimRight_eq_nil_iff (l : List Char) : trimRight l = [] ↔ ∀ x ∈ l, isWs x = true := by
  constructor
  · intro h x hx
    have : l.reverse.dropWhile isWs = [] := by
      have := congrArg List.reverse h
      simpa [trimRight] using this
    exact (List.dropWhile_eq_nil_iff.mp this) x (by simpa using hx)
  · intro h
    simp only [trimRight, List.reverse_eq_nil_iff]
    exact List.dropWhile_eq_nil_iff.mpr fun x hx => h x (by simpa using hx)

theorem not_isPrefixOf_of_lt {l₁ l₂ : List Char} (h : l₂.length < l₁.length) :
    l₁.isPrefixOf l₂ = false := by
  by_cases hp : l₁.isPrefixOf l₂ = true
  · have := (List.isPrefixOf_iff_prefix.mp hp).length_le
    omega
  · exact Bool.eq_false_iff.mpr hp

theorem isPrefixOf_append_self (l r : List Char) : l.isPrefixOf (l ++ r) = true :=
  List.isPrefixOf_iff_prefix.mpr (List.prefix_append l r)

/-!  Claim theorems. -/

/-- C1.  The trigger filter does return `rule = prefix:!bot` and
`cleanContent = "summarize this"` for the scenario content
`!bot summarize this`, and the normalizer mirrors the rule into
`relay.matched_rule`; but `formatMessageEvent` sets `message.clean_content`
to the trimmed raw content (`payload.js` line 590), not to the filter's
`cleanContent`, so the payload carries `"!bot summarize this"` where the
claim requires `"summarize this"`.  This contradicts the source's own
comment (`// Get clean content (already processed by filters)`): the
filter's clean content is never handed to the normalizer. -/
theorem C1_normalizer_ignores_filter_clean_content :
    (isBotCalled defaultCfg botClient c1Message).rule = some (ruleStrOf (("!bot").toList)) ∧
    (isBotCalled defaultCfg botClient c1Message).cleanContent = ("summarize this").toList ∧
    (formatMessageEvent (("2024-06-01T12:00:00.000Z").toList) c1Message
        (("message_create").toList) (ruleStrOf (("!bot").toList))).relay.matched_rule =
      ruleStrOf (("!bot").toList) ∧
    (formatMessageEvent (("2024-06-01T12:00:00.000Z").toList) c1Message
        (("message_create").toList) (ruleStrOf (("!bot").toList))).relay.bot_called = true ∧
    (formatMessageEvent (("2024-06-01T12:00:00.000Z").toList) c1Message
        (("message_create").toList) (ruleStrOf (("!bot").toList))).message.clean_content =
      ("!bot summarize this").toList ∧
    (formatMessageEvent (("2024-06-01T12:00:00.000Z").toList) c1Message
        (("message_create").toList) (ruleStrOf (("!bot").toList))).message.clean_content ≠
      (isBotCalled defaultCfg botClient c1Message).cleanContent := by
  decide

/-- C3.  When the read of the live configuration file fails, the resolved
destination set is empty — no default webhook, no named webhooks, no secret —
and the dispatch returns no results, even though the cached snapshot holds a
default webhook: `readConfigFile` catches the read error and returns the
empty string, so the `catch` of `getCurrentWebhooks` that would fall back to
the cached configuration never runs. -/
theorem C3_read_failure_dispatches_to_empty_set :
    ∀ (jsonParseObj : List Char → Except (List Char) (List (List Char × JsVal)))
      (err : List Char) (stringify : Unit → List Char)
      (hmac : List Char → List Char → List Char) (nowAt : Nat → List Char)
      (oracle : List Char → Nat → WireOutcome),
      getCurrentWebhooks jsonParseObj (.error err) c3Cached =
        { defaultWebhook := none, webhooks := [], sharedSecret := none } ∧
      sendToN8n stringify hmac nowAt oracle jsonParseObj (.error err) c3Cached () = [] ∧
      c3Cached.webhookUrl = some (("http://cached.example/hook").toList) :=
  fun _ _ _ _ _ _ => ⟨rfl, rfl, rfl⟩

/-- C5 counterexample.  The content `ok.@everyone!` contains `@everyone` as
a whole token bounded by sentence punctuation on both sides — which the
claim's boundary discipline accepts — yet with broadcast mentions enabled
the filter does not trigger, because the source regex only accepts start of
content or whitespace on the left of the token. -/
theorem C5_punct_left_bound_does_not_trigger :
    specTokenOccurs leftBoundWsOrPunct (("@everyone").toList) (trim c5Message.content) = true ∧
    everyoneCfg.allowEveryoneMentions = true ∧
    isBotCalled everyoneCfg botClient c5Message =
      { called := false, rule := none, cleanContent := ("ok.@everyone!").toList } := by
  decide

/-- C6 counterexample.  A bot-authored message with untrimmed content
`" hi "` yields `called = false` with `cleanContent` echoing the raw,
untrimmed content — not the trimmed content the claim requires for every
`called = false` result. -/
theorem C6_bot_author_echoes_untrimmed_content :
    (isBotCalled defaultCfg botClient c6Message).called = false ∧
    (isBotCalled defaultCfg botClient c6Message).cleanContent = (" hi ").toList ∧
    (isBotCalled defaultCfg botClient c6Message).cleanContent ≠ trim c6Message.content := by
  decide

/-- C7 counterexample.  Against a clock whose reads are pairwise distinct,
a maximally retried send carries the same `X-Relay-Timestamp` value — the
one read before the first attempt — on all four attempts, although the clock
would have produced a different value at the send time of each retry; so the
retry attempts do not carry freshly generated timestamps. -/
theorem C7_retries_reuse_initial_timestamp :
    c7Run.2.length = 4 ∧
    (c7Run.2.map fun r => List.lookup (("X-Relay-Timestamp").toList) r.headers) =
      [some (natClock 0), some (natClock 0), some (natClock 0), some (natClock 0)] ∧
    natClock 1 ≠ natClock 0 := by
  decide

/-- C8 counterexample.  A maximally retried send waits 1000ms, 2000ms and
2000·2 = 4000ms between its four attempts: the wait before the last (4th)
attempt is 4 seconds, and no 8-second wait occurs anywhere, contradicting
the claimed 1s, 2s, 4s, 8s sequence. -/
theorem C8_final_wait_is_4s_not_8s :
    (c8Run.2.map fun r => r.delayAfterMs) = [some 1000, some 2000, some 4000, none] ∧
    ¬ some 8000 ∈ (c8Run.2.map fun r => r.delayAfterMs) := by
  decide


/-- Claim C4.  For a non-bot-authored event whose trimmed content equals the
configured prefix exactly, the filter returns `called = true`,
`rule = prefix:<prefix>` and empty clean content; and for content that is
the prefix, one space, and an argument `X` — given a well-formed prefix
(non-empty, no whitespace at its ends) — the filter returns `called = true`
with clean content equal to `X` trimmed of leading and trailing
whitespace. -/
theorem C4_prefix_rule_trigger (cfg : BotConfig) (client : ClientUser) (m : DMessage)
    (hbot : m.author.bot = false) :
    (trim m.content = cfg.botPrefix →
      isBotCalled cfg client m =
        { called := true, rule := some (ruleStrOf cfg.botPrefix), cleanContent := [] }) ∧
    (wfPref cfg.botPrefix = true →
      ∀ X : List Char, m.content = cfg.botPrefix ++ ' ' :: X →
        isBotCalled cfg client m =
          { called := true, rule := some (ruleStrOf cfg.botPrefix), cleanContent := trim X }) := by
  constructor
  · intro htrim
    have hnp : (cfg.botPrefix ++ [' ']).isPrefixOf (trim m.content) = false := by
      apply not_isPrefixOf_of_lt
      simp [htrim]
    simp [isBotCalled, hbot, htrim, hnp]
    intro hpre
    have := hpre.length_le
    simp at this
  · intro hwf X hX
    obtain ⟨hd, tl, hp⟩ : ∃ hd tl, cfg.botPrefix = hd :: tl := by
      cases hcp : cfg.botPrefix with
      | nil => rw [hcp] at hwf; simp [wfPref] at hwf
      | cons a b => exact ⟨a, b, rfl⟩
    rw [hp] at hwf
    simp only [wfPref, Bool.and_eq_true, Bool.not_eq_true'] at hwf
    have hhd : isWs hd = false := hwf.1
    obtain ⟨L, b, hLb⟩ : ∃ L b, cfg.botPrefix = L ++ [b] := by
      rcases List.eq_nil_or_concat cfg.botPrefix with hnil | ⟨L, b, h⟩
      · rw [hnil] at hp; cases hp
      · exact ⟨L, b, by simpa [List.concat_eq_append] using h⟩
    have hbws : isWs b = false := by
      have hgl : cfg.botPrefix.getLastD ' ' = b := by
        rw [hLb]; exact List.getLastD_concat ' ' b L
      have := hwf.2
      rw [← hp, hgl] at this
      exact this
    by_cases hX0 : trimRight (' ' :: X) = []
    · have h1 : trimRight m.content = cfg.botPrefix := by
        rw [hX]
        rw [show cfg.botPrefix ++ ' ' :: X = cfg.botPrefix ++ (' ' :: X) from rfl]
        rw [trimRight_append_of_nil _ _ hX0, hLb]
        exact trimRight_concat_of_not L b hbws
      have h2 : trim m.content = cfg.botPrefix := by
        rw [trim, h1, hp]
        exact trimLeft_cons_of_not hd tl hhd
      have hX1 : trimRight X = [] := by
        rw [trimRight_eq_nil_iff] at hX0 ⊢
        intro x hx
        exact hX0 x (by simp [hx])
      have hX2 : trim X = [] := by rw [trim, hX1]; rfl
      have hnp : (cfg.botPrefix ++ [' ']).isPrefixOf (trim m.content) = false := by
        apply not_isPrefixOf_of_lt
        simp [h2]
      rw [hX2]
      simp [isBotCalled, hbot, h2, hnp]
      intro hpre
      have := hpre.length_le
      simp at this
    · have hXne : trimRight X ≠ [] := by
        intro hnil
        apply hX0
        rw [show (' ' :: X) = [' '] ++ X from rfl, trimRight_append_of_nil _ _ hnil]
        rfl
      have h3 : trimRight (' ' :: X) = ' ' :: trimRight X := by
        rw [show (' ' :: X) = [' '] ++ X from rfl, trimRight_append_of_ne _ _ hXne]
        rfl
      have h4 : trim m.content = cfg.botPrefix ++ ' ' :: trimRight X := by
        rw [trim, hX]
        rw [show cfg.botPrefix ++ ' ' :: X = cfg.botPrefix ++ (' ' :: X) from rfl]
        rw [trimRight_append_of_ne _ _ hX0, h3, hp]
        exact trimLeft_cons_of_not hd (tl ++ ' ' :: trimRight X) hhd
      have hsh : cfg.botPrefix ++ ' ' :: trimRight X = (cfg.botPrefix ++ [' ']) ++ trimRight X := by
        simp
      have hcond : (cfg.botPrefix ++ [' ']).isPrefixOf (trim m.content) = true := by
        rw [h4, hsh]
        exact isPrefixOf_append_self _ _
      have hdrop : (trim m.content).drop (cfg.botPrefix.length + 1) = trimRight X := by
        rw [h4, hsh]
        have hlen : (cfg.botPrefix ++ [' ']).length = cfg.botPrefix.length + 1 := by simp
        rw [← hlen, List.drop_left]
      simp [isBotCalled, hbot, hcond, hdrop, trim_trimRight]

/-- Witness for C4: the default `!bot` prefix, at content `"  !bot  "`
(trimmed-equal case) and at content `"!bot  hi "` (argument case, where the
argument `" hi "` trims to `"hi"`). -/
theorem C4_prefix_rule_trigger_witness :
    isBotCalled defaultCfg botClient c4ExactMsg =
      { called := true, rule := some (ruleStrOf (("!bot").toList)), cleanContent := [] } ∧
    isBotCalled defaultCfg botClient c4ArgMsg =
      { called := true, rule := some (ruleStrOf (("!bot").toList)),
        cleanContent := ("hi").toList } := by
  constructor
  · exact ((C4_prefix_rule_trigger defaultCfg botClient c4ExactMsg rfl).1
      (by decide)).trans (by decide)
  · exact (((C4_prefix_rule_trigger defaultCfg botClient c4ArgMsg rfl).2
      (by decide) ((" hi ").toList) (by decide)).trans (by decide))

/-- Claim C6 (amended).  For every input event: `called = false` implies
`rule = none`; a bot-flagged author always yields `called = false`, with
`cleanContent` echoing the raw (untrimmed) content; and for a non-bot
author, whenever `called = false` the clean content equals the trimmed raw
content.  (The original claim said the trimmed content is echoed in every
`called = false` case; the bot-author early return echoes it untrimmed.) -/
theorem C6_untriggered_invariants (cfg : BotConfig) (client : ClientUser) (m : DMessage) :
    ((isBotCalled cfg client m).called = false → (isBotCalled cfg client m).rule = none) ∧
    (m.author.bot = true →
      isBotCalled cfg client m = { called := false, rule := none, cleanContent := m.content }) ∧
    (m.author.bot = false → (isBotCalled cfg client m).called = false →
      (isBotCalled cfg client m).cleanContent = trim m.content) := by
  refine ⟨?_, ?_, ?_⟩
  · simp only [isBotCalled]
    split
    · intro _; rfl
    · split
      · intro hc; simp at hc
      · split
        · intro hc; simp at hc
        · intro _; rfl
  · intro hb
    simp [isBotCalled, hb]
  · intro hb
    simp only [isBotCalled, hb, Bool.false_eq_true, if_false]
    split
    · intro hc; simp at hc
    · split
      · intro hc; simp at hc
      · intro _; rfl

/-- Witness for C6: the bot-authored message with content `" hi "`. -/
theorem C6_untriggered_invariants_witness :
    isBotCalled defaultCfg botClient c6Message =
      { called := false, rule := none, cleanContent := c6Message.content } :=
  (C6_untriggered_invariants defaultCfg botClient c6Message).2.1 rfl

/-- The regex lookahead class and the spec-worded right boundary coincide. -/
theorem lookaheadOk_eq_rightBoundOk (l : List Char) : lookaheadOk l = rightBoundOk l := by
  cases l with
  | nil => rfl
  | cons c t =>
    simp only [lookaheadOk, rightBoundOk, sentencePunct, List.contains_cons, List.contains_nil,
      beq_iff_eq, Bool.or_false]
    rcases h1 : isWs c with _ | _ <;>
      simp [Bool.or_assoc, show ∀ x y : Char, (x == y) = decide (x = y) from fun x y => rfl]

/-- Decomposition characterization of the whitespace-then-token scan. -/
theorem tokenAfterWs_iff (tok s : List Char) :
    tokenAfterWs tok s = true ↔
      ∃ pre c rest, s = pre ++ c :: rest ∧ isWs c = true ∧ tokenAt tok rest = true := by
  induction s with
  | nil =>
    simp only [tokenAfterWs, Bool.false_eq_true, false_iff]
    rintro ⟨pre, c, rest, h, _, _⟩
    exact absurd h.symm (by simp)
  | cons a t ih =>
    simp only [tokenAfterWs, Bool.or_eq_true, Bool.and_eq_true, ih]
    constructor
    · rintro (⟨hws, htok⟩ | ⟨pre, c, rest, hdec, hws, htok⟩)
      · exact ⟨[], a, t, rfl, hws, htok⟩
      · exact ⟨a :: pre, c, rest, by simp [hdec], hws, htok⟩
    · rintro ⟨pre, c, rest, hdec, hws, htok⟩
      cases pre with
      | nil =>
        simp only [List.nil_append, List.cons.injEq] at hdec
        exact Or.inl ⟨hdec.1 ▸ hws, hdec.2 ▸ htok⟩
      | cons p ps =>
        simp only [List.cons_append, List.cons.injEq] at hdec
        exact Or.inr ⟨ps, c, rest, hdec.2, hws, htok⟩

/-- Decomposition characterization of the spec-worded token-occurrence
predicate. -/
theorem specTokenOccurs_iff (leftOk : Option Char → Bool) (tok s : List Char) :
    specTokenOccurs leftOk tok s = true ↔
      ∃ pre rest, s = pre ++ rest ∧ leftOk pre.getLast? = true ∧ tok.isPrefixOf rest = true ∧
        rightBoundOk (rest.drop tok.length) = true := by
  simp only [specTokenOccurs, splitsOf, List.any_eq_true, List.mem_map, List.mem_range,
    Bool.and_eq_true]
  constructor
  · rintro ⟨pr, ⟨i, hi, rfl⟩, ⟨h1, h2⟩, h3⟩
    exact ⟨s.take i, s.drop i, (List.take_append_drop i s).symm, h1, h2, h3⟩
  · rintro ⟨pre, rest, rfl, h1, h2, h3⟩
    refine ⟨(pre, rest), ⟨pre.length, ?_, ?_⟩, ⟨h1, h2⟩, h3⟩
    · simp only [List.length_append]
      omega
    · simp [List.take_left, List.drop_left]

/-- The source's broadcast-token regex scan agrees with the spec-worded
predicate whose left boundary is start-of-content or whitespace. -/
theorem hasBroadcastToken_eq_spec (tok s : List Char) :
    hasBroadcastToken tok s = specTokenOccurs leftBoundWsOnly tok s := by
  have h : hasBroadcastToken tok s = true ↔ specTokenOccurs leftBoundWsOnly tok s = true := by
    rw [specTokenOccurs_iff]
    simp only [hasBroadcastToken, Bool.or_eq_true, tokenAfterWs_iff]
    constructor
    · rintro (htok | ⟨pre, c, rest, rfl, hws, htok⟩)
      · simp only [tokenAt, Bool.and_eq_true] at htok
        exact ⟨[], s, rfl, rfl, htok.1, by rw [← lookaheadOk_eq_rightBoundOk]; exact htok.2⟩
      · simp only [tokenAt, Bool.and_eq_true] at htok
        refine ⟨pre ++ [c], rest, by simp, ?_, htok.1,
          by rw [← lookaheadOk_eq_rightBoundOk]; exact htok.2⟩
        simp [List.getLast?_concat, leftBoundWsOnly, hws]
    · rintro ⟨pre, rest, rfl, hleft, hpref, hrb⟩
      rcases List.eq_nil_or_concat pre with hnil | ⟨L, c, hLc⟩
      · subst hnil
        exact Or.inl (by simp [tokenAt, hpref, lookaheadOk_eq_rightBoundOk, hrb])
      · rw [List.concat_eq_append] at hLc
        subst hLc
        have hws : isWs c = true := by
          simpa [leftBoundWsOnly, List.getLast?_concat] using hleft
        exact Or.inr ⟨L, c, rest, by simp, hws,
          by simp [tokenAt, hpref, lookaheadOk_eq_rightBoundOk, hrb]⟩
  cases h1 : hasBroadcastToken tok s <;> cases h2 : specTokenOccurs leftBoundWsOnly tok s <;>
    simp_all

/-- Claim C5 (amended).  For a non-bot event that matches neither the prefix
rule nor the bot-mention rule and whose platform mention flags are unset,
the filter yields `called = true` with rule `mention` exactly when broadcast
mentions are enabled and the content contains `@everyone` or `@here` as a
whole token preceded by start-of-content or whitespace (not punctuation) and
followed by whitespace, end-of-content, or sentence punctuation.  In
particular a token embedded inside another word never triggers. -/
theorem C5_broadcast_token_gating (cfg : BotConfig) (client : ClientUser) (m : DMessage)
    (hbot : m.author.bot = false)
    (hpre : ((cfg.botPrefix ++ [' ']).isPrefixOf (trim m.content) ||
             decide (trim m.content = cfg.botPrefix)) = false)
    (hbm : mentionPatternTest client.userId (trim m.content) = false)
    (hbu : m.mentions.hasBotUser = false)
    (hme : m.mentions.everyone = false) :
    ((isBotCalled cfg client m).called = true ∧
     (isBotCalled cfg client m).rule = some (("mention").toList)) ↔
      (cfg.allowEveryoneMentions = true ∧
        (specTokenOccurs leftBoundWsOnly (("@everyone").toList) (trim m.content) = true ∨
         specTokenOccurs leftBoundWsOnly (("@here").toList) (trim m.content) = true)) := by
  rw [← hasBroadcastToken_eq_spec, ← hasBroadcastToken_eq_spec]
  by_cases hflag : cfg.allowEveryoneMentions = true <;>
    by_cases hev : hasBroadcastToken (("@everyone").toList) (trim m.content) = true <;>
      by_cases hhe : hasBroadcastToken (("@here").toList) (trim m.content) = true <;>
        simp_all [isBotCalled]

/-- Witness for C5: content `"go @everyone now"` with broadcast mentions
enabled triggers the mention rule. -/
theorem C5_broadcast_token_gating_witness :
    (isBotCalled everyoneCfg botClient c5TriggerMsg).called = true ∧
    (isBotCalled everyoneCfg botClient c5TriggerMsg).rule = some (("mention").toList) :=
  (C5_broadcast_token_gating everyoneCfg botClient c5TriggerMsg rfl (by decide) (by decide)
    rfl rfl).mpr ⟨rfl, Or.inl (by decide)⟩

/-- Every attempt record of the retry loop carries the headers the loop was
given: the loop never rebuilds them. -/
theorem sendAttempts_headers_mem (oracle : Nat → WireOutcome)
    (H : List (List Char × List Char)) (mr bd : Nat) :
    ∀ (fuel a : Nat) (r : AttemptRecord), r ∈ (sendAttempts oracle H mr bd a fuel).2 →
      r.headers = H := by
  intro fuel
  induction fuel with
  | zero => intro a r hr; simp [sendAttempts] at hr
  | succ f ih =>
    intro a r hr
    simp only [sendAttempts] at hr
    split at hr
    · split at hr
      · simp at hr; rw [hr]
      · simp at hr; rw [hr]
    · split at hr
      · simp at hr; rw [hr]
      · simp only [List.mem_cons] at hr
        rcases hr with hr | hr
        · rw [hr]
        · exact ih (a + 1) r hr

/-- A full run of the retry loop against a constant retryable error: four
attempts, backoff waits of `bd·2^0`, `bd·2^1`, `bd·2^2`, and a failure
result carrying the error's response status and message. -/
theorem sendAttempts_const_error (H : List (List Char × List Char)) (bd : Nat)
    (w : WireOutcome) (e : AxiosError)
    (hw : axiosPostLt500 w = .error e) (hne : isNetworkError e = true) :
    sendAttempts (fun _ => w) H maxRetries bd 0 (maxRetries + 1) =
      ({ success := false, status := e.respStatus,
         error := some (if e.msg.isEmpty then ("Unknown error").toList else e.msg) },
       [{ headers := H, delayAfterMs := some (bd * 2 ^ 0) },
        { headers := H, delayAfterMs := some (bd * 2 ^ 1) },
        { headers := H, delayAfterMs := some (bd * 2 ^ 2) },
        { headers := H, delayAfterMs := none }]) := by
  simp [sendAttempts, maxRetries, hw, hne]

/-- When the first attempt yields a response, the loop stops after one
attempt, succeeding exactly on a 2xx status. -/
theorem sendAttempts_first_resp (oracle : Nat → WireOutcome)
    (H : List (List Char × List Char)) (bd : Nat) (resp : AxResponse)
    (hw : axiosPostLt500 (oracle 0) = .ok resp) :
    sendAttempts oracle H maxRetries bd 0 (maxRetries + 1) =
      (if 200 ≤ resp.status ∧ resp.status < 300 then
         ({ success := true, status := some resp.status, error := none },
          [{ headers := H, delayAfterMs := none }])
       else
         ({ success := false, status := some resp.status,
            error := some (("HTTP ").toList ++ (Nat.repr resp.status).toList ++
                           (": ").toList ++ resp.statusText) },
          [{ headers := H, delayAfterMs := none }])) := by
  simp only [sendAttempts, hw]

/-- Claim C2.  A destination answering any status of at least 500 on every
attempt is attempted exactly 4 times before a failure result; a 4xx response
(including 404) terminates after exactly one attempt with a failure carrying
that status; a 2xx response succeeds on the first attempt; and a
connection-level error (`ECONNREFUSED`, `ETIMEDOUT`, `ENOTFOUND`) on every
attempt is likewise retried to exactly 4 attempts before failing. -/
theorem C2_http_status_retry_policy {α : Type} (stringify : α → List Char)
    (hmac : List Char → List Char → List Char) (nowAt : Nat → List Char)
    (url : List Char) (payload : α) (name : List Char) (secret : Option (List Char)) :
    (∀ s st, 500 ≤ s →
      (sendToWebhook stringify hmac nowAt (fun _ => .ok s st) url payload name secret).2.length = 4 ∧
      (sendToWebhook stringify hmac nowAt (fun _ => .ok s st) url payload name secret).1.success = false) ∧
    (∀ s st, 400 ≤ s → s < 500 →
      (sendToWebhook stringify hmac nowAt (fun _ => .ok s st) url payload name secret).2.length = 1 ∧
      (sendToWebhook stringify hmac nowAt (fun _ => .ok s st) url payload name secret).1.success = false ∧
      (sendToWebhook stringify hmac nowAt (fun _ => .ok s st) url payload name secret).1.status = some s) ∧
    (∀ s st, 200 ≤ s → s < 300 →
      (sendToWebhook stringify hmac nowAt (fun _ => .ok s st) url payload name secret).2.length = 1 ∧
      (sendToWebhook stringify hmac nowAt (fun _ => .ok s st) url payload name secret).1.success = true ∧
      (sendToWebhook stringify hmac nowAt (fun _ => .ok s st) url payload name secret).1.status = some s) ∧
    (∀ code msg,
      code ∈ [("ECONNREFUSED").toList, ("ETIMEDOUT").toList, ("ENOTFOUND").toList] →
      (sendToWebhook stringify hmac nowAt (fun _ => .fail (some code) none msg)
        url payload name secret).2.length = 4 ∧
      (sendToWebhook stringify hmac nowAt (fun _ => .fail (some code) none msg)
        url payload name secret).1.success = false) := by
  refine ⟨?_, ?_, ?_, ?_⟩
  · intro s st h
    have hlt : ¬ s < 500 := by omega
    have hax : axiosPostLt500 (.ok s st) =
        .error { code := none, respStatus := some s,
                 msg := ("Request failed with status code ").toList ++ (Nat.repr s).toList } := by
      simp [axiosPostLt500, hlt]
    have hne : isNetworkError
        { code := none, respStatus := some s,
          msg := ("Request failed with status code ").toList ++ (Nat.repr s).toList } = true := by
      simpa [isNetworkError] using h
    constructor <;> simp only [sendToWebhook] <;>
      rw [sendAttempts_const_error _ _ _ _ hax hne] <;> rfl
  · intro s st h1 h2
    have hax : axiosPostLt500 ((fun _ : Nat => WireOutcome.ok s st) 0) =
        .ok { status := s, statusText := st } := by
      simp [axiosPostLt500, h2]
    have hcond : ¬ (200 ≤ s ∧ s < 300) := by omega
    refine ⟨?_, ?_, ?_⟩ <;> simp only [sendToWebhook] <;>
      rw [sendAttempts_first_resp _ _ _ _ hax] <;> simp [hcond]
  · intro s st h1 h2
    have hlt : s < 500 := by omega
    have hax : axiosPostLt500 ((fun _ : Nat => WireOutcome.ok s st) 0) =
        .ok { status := s, statusText := st } := by
      simp [axiosPostLt500, hlt]
    have hcond : 200 ≤ s ∧ s < 300 := ⟨h1, h2⟩
    refine ⟨?_, ?_, ?_⟩ <;> simp only [sendToWebhook] <;>
      rw [sendAttempts_first_resp _ _ _ _ hax] <;> simp [hcond]
  · intro code msg hmem
    have hax : axiosPostLt500 (.fail (some code) none msg) =
        .error { code := some code, respStatus := none, msg := msg } := rfl
    have hne : isNetworkError { code := some code, respStatus := none, msg := msg } = true := by
      simp only [List.mem_cons, List.not_mem_nil, or_false] at hmem
      rcases hmem with rfl | rfl | rfl <;> rfl
    constructor <;> simp only [sendToWebhook] <;>
      rw [sendAttempts_const_error _ _ _ _ hax hne] <;> rfl

/-- Witness for C2: constant 500, 404, 200 and refused-connection transports
at concrete arguments. -/
theorem C2_http_status_retry_policy_witness :
    (sendToWebhook (fun _ : Unit => []) (fun _ d => d) natClock
      (fun _ => .ok 500 (("Internal Server Error").toList))
      (("http://example/hook").toList) () (("default").toList) none).2.length = 4 ∧
    (sendToWebhook (fun _ : Unit => []) (fun _ d => d) natClock
      (fun _ => .ok 404 (("Not Found").toList))
      (("http://example/hook").toList) () (("default").toList) none).2.length = 1 ∧
    (sendToWebhook (fun _ : Unit => []) (fun _ d => d) natClock
      (fun _ => .ok 200 (("OK").toList))
      (("http://example/hook").toList) () (("default").toList) none).1.success = true ∧
    (sendToWebhook (fun _ : Unit => []) (fun _ d => d) natClock
      (fun _ => .fail (some (("ECONNREFUSED").toList)) none (("connect ECONNREFUSED").toList))
      (("http://example/hook").toList) () (("default").toList) none).2.length = 4 :=
  ⟨((C2_http_status_retry_policy (fun _ : Unit => []) (fun _ d => d) natClock
      (("http://example/hook").toList) () (("default").toList) none).1
      500 (("Internal Server Error").toList) (by decide)).1,
   ((C2_http_status_retry_policy (fun _ : Unit => []) (fun _ d => d) natClock
      (("http://example/hook").toList) () (("default").toList) none).2.1
      404 (("Not Found").toList) (by decide) (by decide)).1,
   ((C2_http_status_retry_policy (fun _ : Unit => []) (fun _ d => d) natClock
      (("http://example/hook").toList) () (("default").toList) none).2.2.1
      200 (("OK").toList) (by decide) (by decide)).2.1,
   ((C2_http_status_retry_policy (fun _ : Unit => []) (fun _ d => d) natClock
      (("http://example/hook").toList) () (("default").toList) none).2.2.2
      (("ECONNREFUSED").toList) (("connect ECONNREFUSED").toList) (by decide)).1⟩

/-- Lookup of the timestamp header in the unsigned header list. -/
theorem lookup_ts_in_base (ts : List Char) :
    List.lookup (("X-Relay-Timestamp").toList)
      [(("Content-Type").toList, ("application/json").toList),
       (("X-Relay-Timestamp").toList, ts)] = some ts := rfl

/-- Lookup of the timestamp header in the signed header list. -/
theorem lookup_ts_in_signed (ts v : List Char) :
    List.lookup (("X-Relay-Timestamp").toList)
      ([(("Content-Type").toList, ("application/json").toList),
        (("X-Relay-Timestamp").toList, ts)] ++ [(("X-Relay-Signature").toList, v)]) =
      some ts := rfl

/-- Lookup of the signature header in the signed header list. -/
theorem lookup_sig_in_signed (ts v : List Char) :
    List.lookup (("X-Relay-Signature").toList)
      ([(("Content-Type").toList, ("application/json").toList),
        (("X-Relay-Timestamp").toList, ts)] ++ [(("X-Relay-Signature").toList, v)]) =
      some v := rfl

/-- Claim C7 (amended).  The request headers are built once per destination
send, before the first attempt: every attempt (retries included) carries the
`X-Relay-Timestamp` value of the single clock read made at the start of the
call, and — when a non-empty secret is configured — an `X-Relay-Signature`
computed over the payload serialization only (the timestamp is not an input
to the signature). -/
theorem C7_headers_built_once {α : Type} (stringify : α → List Char)
    (hmac : List Char → List Char → List Char) (nowAt : Nat → List Char)
    (oracle : Nat → WireOutcome) (url : List Char) (payload : α) (name : List Char)
    (secret : Option (List Char)) :
    ∀ r ∈ (sendToWebhook stringify hmac nowAt oracle url payload name secret).2,
      List.lookup (("X-Relay-Timestamp").toList) r.headers = some (nowAt 0) ∧
      (∀ sec, secret = some sec → sec.isEmpty = false →
        List.lookup (("X-Relay-Signature").toList) r.headers =
          some (hmac sec (stringify payload))) := by
  intro r hr
  simp only [sendToWebhook] at hr
  have hH := sendAttempts_headers_mem oracle _ maxRetries baseDelay (maxRetries + 1) 0 r hr
  rw [hH]
  cases secret with
  | none =>
    refine ⟨lookup_ts_in_base _, ?_⟩
    intro sec hsec
    cases hsec
  | some sec =>
    by_cases hse : sec.isEmpty = true
    · simp only [hse, if_true]
      refine ⟨lookup_ts_in_base _, ?_⟩
      intro sec' hsec' hne
      injection hsec' with h
      rw [← h] at hne
      rw [hse] at hne
      cases hne
    · simp only [Bool.not_eq_true] at hse
      simp only [hse, Bool.false_eq_true, if_false]
      refine ⟨lookup_ts_in_signed _ _, ?_⟩
      intro sec' hsec' hne
      injection hsec' with h
      rw [← h]
      exact lookup_sig_in_signed _ _

/-- Witness for C7 (amended): the first attempt record of the maximally
retried run carries the first clock read as its timestamp header. -/
theorem C7_headers_built_once_witness :
    List.lookup (("X-Relay-Timestamp").toList)
      ({ headers := [(("Content-Type").toList, ("application/json").toList),
                     (("X-Relay-Timestamp").toList, natClock 0)],
         delayAfterMs := some 1000 : AttemptRecord }).headers = some (natClock 0) :=
  ((C7_headers_built_once (fun _ : Unit => []) (fun _ d => d) natClock refusedOracle
    (("http://example/hook").toList) () (("default").toList) none)
    { headers := [(("Content-Type").toList, ("application/json").toList),
                  (("X-Relay-Timestamp").toList, natClock 0)],
      delayAfterMs := some 1000 } (by decide)).1

/-- Claim C8 (amended).  Under retryable failures on every attempt, the
waits between attempts follow exponential backoff starting at 1000ms and
doubling per failed attempt: 1s, then 2s, then 4s, with the 4s wait as the
final one before the last (4th) attempt; no further wait follows the last
attempt.  (The original claim's 8s wait never occurs: the wait after failed
attempt `k` is `1000·2^k` and the last retried attempt has `k = 2`.) -/
theorem C8_exponential_backoff_waits {α : Type} (stringify : α → List Char)
    (hmac : List Char → List Char → List Char) (nowAt : Nat → List Char)
    (url : List Char) (payload : α) (name : List Char) (secret : Option (List Char))
    (w : WireOutcome) (e : AxiosError)
    (hw : axiosPostLt500 w = .error e) (hne : isNetworkError e = true) :
    ((sendToWebhook stringify hmac nowAt (fun _ => w) url payload name secret).2.map
      fun r => r.delayAfterMs) = [some 1000, some 2000, some 4000, none] := by
  simp only [sendToWebhook]
  rw [sendAttempts_const_error _ _ _ _ hw hne]
  simp [baseDelay]

/-- Witness for C8 (amended): the refused-connection transport. -/
theorem C8_exponential_backoff_waits_witness :
    ((sendToWebhook (fun _ : Unit => []) (fun _ d => d) natClock refusedOracle
      (("http://example/hook").toList) () (("default").toList) none).2.map
      fun r => r.delayAfterMs) = [some 1000, some 2000, some 4000, none] :=
  C8_exponential_backoff_waits (fun _ : Unit => []) (fun _ d => d) natClock
    (("http://example/hook").toList) () (("default").toList) none
    (.fail (some (("ECONNREFUSED").toList)) none (("connect ECONNREFUSED").toList))
    { code := some (("ECONNREFUSED").toList), respStatus := none,
      msg := ("connect ECONNREFUSED").toList } rfl rfl

/-- Claim C9.  When the resolved destination set has no default webhook and
an empty named-webhook map, `sendToN8n` returns the empty result list (the
embedding is a total function, so no error is raised); and this outcome is
distinct from a failing dispatch: whenever a default webhook is configured
the result list is non-empty. -/
theorem C9_empty_destination_set {α : Type} (stringify : α → List Char)
    (hmac : List Char → List Char → List Char) (nowAt : Nat → List Char)
    (oracle : List Char → Nat → WireOutcome)
    (jsonParseObj : List Char → Except (List Char) (List (List Char × JsVal)))
    (readResult : Except (List Char) (List Char)) (cached : CachedConfig) (payload : α) :
    ((getCurrentWebhooks jsonParseObj readResult cached).defaultWebhook = none →
     (getCurrentWebhooks jsonParseObj readResult cached).webhooks = [] →
     sendToN8n stringify hmac nowAt oracle jsonParseObj readResult cached payload = []) ∧
    (∀ url, (getCurrentWebhooks jsonParseObj readResult cached).defaultWebhook = some url →
     sendToN8n stringify hmac nowAt oracle jsonParseObj readResult cached payload ≠ []) := by
  constructor
  · intro h1 h2
    simp [sendToN8n, h1, h2]
  · intro url h1
    simp [sendToN8n, h1]

/-- Witness for C9: an empty configuration file resolves to no destinations
and the dispatch returns the empty list. -/
theorem C9_empty_destination_set_witness :
    sendToN8n (fun _ : Unit => []) (fun _ d => d) natClock
      (fun _ _ => WireOutcome.ok 200 (("OK").toList)) failJson (.ok [])
      { webhookUrl := none, webhooks := [], sharedSecret := none } () = [] :=
  (C9_empty_destination_set (fun _ : Unit => []) (fun _ d => d) natClock
    (fun _ _ => WireOutcome.ok 200 (("OK").toList)) failJson (.ok [])
    { webhookUrl := none, webhooks := [], sharedSecret := none } ()).1 (by decide) (by decide)

/-- Claim C10.  `testWebhook` performs exactly one HTTP attempt regardless
of the outcome, never raises (the embedding is total: a transport error is
converted into a result), and returns `success = true` exactly when the
response status lies in `[200, 300)`; a transport error yields a failure
result carrying the error's message, code and response status. -/
theorem C10_testWebhook_single_attempt (stringify : TestPayloadShape → List Char)
    (hmac : List Char → List Char → List Char) (nowAt : Nat → List Char)
    (elapsedMs : Nat) (oracle : Nat → WireOutcome) (url : List Char)
    (secret : Option (List Char)) :
    (testWebhook stringify hmac nowAt elapsedMs oracle url secret).2.length = 1 ∧
    ((testWebhook stringify hmac nowAt elapsedMs oracle url secret).1.success = true ↔
      ∃ s st, oracle 0 = .ok s st ∧ 200 ≤ s ∧ s < 300) ∧
    (∀ c rs msg, oracle 0 = .fail c rs msg →
      (testWebhook stringify hmac nowAt elapsedMs oracle url secret).1 =
        { success := false, status := rs,
          error := some (if msg.isEmpty then ("Unknown error").toList else msg),
          code := c, responseTime := elapsedMs }) := by
  rcases hor : oracle 0 with ⟨s, st⟩ | ⟨c, rs, msg⟩
  · refine ⟨?_, ?_, ?_⟩
    · simp [testWebhook, axiosPostAll, hor]
    · simp [testWebhook, axiosPostAll, hor]
    · intro c rs msg h
      simp at h
  · refine ⟨?_, ?_, ?_⟩
    · simp [testWebhook, axiosPostAll, hor]
    · simp [testWebhook, axiosPostAll, hor]
    · intro c' rs' msg' h
      injection h with h1 h2 h3
      subst h1
      subst h2
      subst h3
      simp [testWebhook, axiosPostAll, hor]

/-- Witness for C10: a refused connection yields one attempt and a converted
failure result. -/
theorem C10_testWebhook_single_attempt_witness :
    (testWebhook (fun _ => []) (fun _ d => d) natClock 5 refusedOracle
      (("http://example/hook").toList) none).1 =
      { success := false, status := none, error := some (("connect ECONNREFUSED").toList),
        code := some (("ECONNREFUSED").toList), responseTime := 5 } :=
  (((C10_testWebhook_single_attempt (fun _ => []) (fun _ d => d) natClock 5 refusedOracle
      (("http://example/hook").toList) none).2.2
      (some (("ECONNREFUSED").toList)) none (("connect ECONNREFUSED").toList) rfl)).trans
    (by decide)

end DiscordRelay
